import Mathlib

/-!
# Verification of `pathctl` (src/main.rs)

A shallow embedding of the interactive PATH editor in `src/main.rs`:
the list model (selection cursor over an ordered list of path entries),
the input-mode state machine, the event-dispatch step of `run_app`, and
the command generator `generate_shell_command`.

Rust strings become `String`, `Vec<PathBuf>` becomes `List String`
(`PathBuf::from` of a `&str` keeps the string), `ListState.selected()`
becomes `Option Nat`, and `usize` arithmetic is `Nat` with the places
where the Rust code can panic (index underflow, out-of-bounds
`Vec::remove`) made explicit as a `panic` outcome.  External
collaborators (the filesystem existence probe `Path::exists`, shell
detection via `$SHELL`) are injected as parameters, as the code's own
tests do.
-/

namespace Pathctl

/-- Key codes used by `run_app` / `handle_input_mode` (crossterm `KeyCode`);
`other` stands for any key code the program never inspects. -/
inductive KeyCode where
  | char (c : Char)
  | esc
  | enter
  | backspace
  | up
  | down
  | other
deriving DecidableEq, Repr

/-- Crossterm `KeyModifiers` as a set of flags; the program only ever
compares the whole value against `KeyModifiers::CONTROL`. -/
structure KeyModifiers where
  shift : Bool
  control : Bool
  alt : Bool
deriving DecidableEq, Repr

/-- `KeyModifiers::NONE`: no modifier held. -/
def KeyModifiers.NONE : KeyModifiers := ⟨false, false, false⟩

/-- `KeyModifiers::CONTROL`: exactly the control flag. -/
def KeyModifiers.CONTROL : KeyModifiers := ⟨false, true, false⟩

/-- A crossterm key event: code plus modifiers. -/
structure KeyEvent where
  code : KeyCode
  modifiers : KeyModifiers
deriving DecidableEq, Repr

/-- `enum InputMode` from the source. -/
inductive InputMode where
  | Normal
  | InsertAfter
  | InsertBefore
deriving DecidableEq, Repr

/-- `enum InsertionPoint` from the source. -/
inductive InsertionPoint where
  | Before
  | After
deriving DecidableEq, Repr

/-- The mutable state of `run_app`: `paths`, `list_state.selected()`,
`input_mode` and the text buffer `input`. -/
structure Session where
  paths : List String
  selection : Option Nat
  input_mode : InputMode
  input : String
deriving DecidableEq, Repr

/-- `run_app`'s initialisation (lines 55–61): select index 0 when the
initial list is non-empty, otherwise leave the selection `None`
(`ListState::default`). -/
def init_session (paths : List String) : Session :=
  { paths := paths
    selection := if paths.isEmpty then none else some 0
    input_mode := InputMode.Normal
    input := "" }

/-- `insert_path_at_selection` (lines 204–218): target index is the
selected index (default 0) for `Before`, one past it for `After`,
clamped to the list length; the new path is inserted there and the
selection set to the inserted index. -/
def insert_path_at_selection (paths : List String) (selection : Option Nat)
    (new_path : String) (insertion_point : InsertionPoint) :
    List String × Option Nat :=
  let selected_index := selection.getD 0
  let insert_index :=
    match insertion_point with
    | InsertionPoint.Before => selected_index
    | InsertionPoint.After => selected_index + 1
  let insert_index := min insert_index paths.length
  (paths.insertIdx insert_index new_path, some insert_index)

/-- The target index `insert_path_at_selection` aims at: the selected
index (defaulting to 0) for `Before`, one past it for `After`. -/
def target_index (selection : Option Nat)
    (insertion_point : InsertionPoint) : Nat :=
  match insertion_point with
  | InsertionPoint.Before => selection.getD 0
  | InsertionPoint.After => selection.getD 0 + 1

/-- The `KeyCode::Char('d')` branch of `run_app` (lines 90–104).
`none` models the panic of `Vec::remove` when the selected index is out
of bounds; otherwise the entry at the selection is removed and the
selection re-validated (`None` on an emptied list, else the same index
clamped to the new last index). -/
def delete_selected (paths : List String) (selection : Option Nat) :
    Option (List String × Option Nat) :=
  match selection with
  | none => some (paths, none)
  | some selected =>
      if selected < paths.length then
        let paths' := paths.eraseIdx selected
        let new_index := if selected ≥ paths'.length then paths'.length - 1 else selected
        some (paths', if paths'.isEmpty then none else some new_index)
      else
        none

/-- `handle_input_mode` (lines 160–189).  `probe` is the injected
filesystem existence check (`PathBuf::exists`).  Returns the updated
`(input, input_mode, paths, selection)` packed as a `Session`. -/
def handle_input_mode (probe : String → Bool) (key : KeyEvent)
    (input : String) (input_mode : InputMode)
    (paths : List String) (selection : Option Nat)
    (insertion_point : InsertionPoint) : Session :=
  match key.code with
  | KeyCode.enter =>
      let new_path := input.trim
      let (paths', selection') :=
        if probe new_path then
          insert_path_at_selection paths selection new_path insertion_point
        else
          (paths, selection)
      { paths := paths', selection := selection'
        input_mode := InputMode.Normal, input := "" }
  | KeyCode.esc =>
      { paths := paths, selection := selection
        input_mode := InputMode.Normal, input := "" }
  | KeyCode.char c =>
      { paths := paths, selection := selection
        input_mode := input_mode, input := input.push c }
  | KeyCode.backspace =>
      { paths := paths, selection := selection
        input_mode := input_mode, input := input.dropRight 1 }
  | _ =>
      { paths := paths, selection := selection
        input_mode := input_mode, input := input }

/-- The quit condition of `run_app` (lines 71–75): `q`, `Esc`, or `c`
with exactly the control modifier, checked only in `Normal` mode. -/
def quit_requested (key : KeyEvent) : Bool :=
  key.code == KeyCode.char 'q' || key.code == KeyCode.esc ||
    (key.code == KeyCode.char 'c' && key.modifiers == KeyModifiers.CONTROL)

/-- Outcome of dispatching one key event in `run_app`'s loop body. -/
inductive StepResult where
  /-- The loop continues with the updated session state. -/
  | cont (s : Session)
  /-- `return Ok(paths)`: the loop exits with the final path list. -/
  | quit (paths : List String)
  /-- The Rust code panics here (usize underflow in `paths.len() - 1`
  on an empty list, or out-of-bounds `Vec::remove`). -/
  | panic
deriving DecidableEq, Repr

/-- One iteration of `run_app`'s event loop for a key event
(lines 67–155): dispatch on the current mode, then on the key. -/
def step (probe : String → Bool) (s : Session) (key : KeyEvent) : StepResult :=
  match s.input_mode with
  | InputMode.Normal =>
      if quit_requested key then
        StepResult.quit s.paths
      else
        match key.code with
        | KeyCode.char 'a' =>
            StepResult.cont { s with input_mode := InputMode.InsertAfter, input := "" }
        | KeyCode.char 'b' =>
            StepResult.cont { s with input_mode := InputMode.InsertBefore, input := "" }
        | KeyCode.char 'd' =>
            match delete_selected s.paths s.selection with
            | some (paths', selection') =>
                StepResult.cont { s with paths := paths', selection := selection' }
            | none => StepResult.panic
        | KeyCode.up =>
            StepResult.cont { s with selection :=
              match s.selection with
              | some i => if i > 0 then some (i - 1) else some 0
              | none => some 0 }
        | KeyCode.char 'k' =>
            StepResult.cont { s with selection :=
              match s.selection with
              | some i => if i > 0 then some (i - 1) else some 0
              | none => some 0 }
        | KeyCode.down =>
            match s.selection with
            | some i =>
                if s.paths.length = 0 then
                  StepResult.panic
                else if i < s.paths.length - 1 then
                  StepResult.cont { s with selection := some (i + 1) }
                else
                  StepResult.cont { s with selection := some (s.paths.length - 1) }
            | none => StepResult.cont { s with selection := some 0 }
        | KeyCode.char 'j' =>
            match s.selection with
            | some i =>
                if s.paths.length = 0 then
                  StepResult.panic
                else if i < s.paths.length - 1 then
                  StepResult.cont { s with selection := some (i + 1) }
                else
                  StepResult.cont { s with selection := some (s.paths.length - 1) }
            | none => StepResult.cont { s with selection := some 0 }
        | _ => StepResult.cont s
  | InputMode.InsertAfter =>
      StepResult.cont
        (handle_input_mode probe key s.input s.input_mode s.paths s.selection
          InsertionPoint.After)
  | InputMode.InsertBefore =>
      StepResult.cont
        (handle_input_mode probe key s.input s.input_mode s.paths s.selection
          InsertionPoint.Before)

/-- Outcome of running the loop on a finite sequence of key events. -/
inductive RunResult where
  | running (s : Session)
  | quit (paths : List String)
  | panicked
deriving DecidableEq, Repr

/-- Fold `step` over a list of key events; a quit or panic ends the run. -/
def run_keys (probe : String → Bool) (s : Session) : List KeyEvent → RunResult
  | [] => RunResult.running s
  | key :: keys =>
      match step probe s key with
      | StepResult.cont s' => run_keys probe s' keys
      | StepResult.quit paths => RunResult.quit paths
      | StepResult.panic => RunResult.panicked

/-- The Selection invariant of the spec: a non-empty list carries
`some i` with `i < len`; an empty list carries `none`. -/
def selection_invariant (paths : List String) (selection : Option Nat) : Prop :=
  match selection with
  | none => paths = []
  | some i => i < paths.length

instance (paths : List String) (selection : Option Nat) :
    Decidable (selection_invariant paths selection) := by
  unfold selection_invariant
  match selection with
  | none => exact inferInstanceAs (Decidable (paths = []))
  | some i => exact inferInstanceAs (Decidable (i < paths.length))

/-! ## Command generation -/

/-- The platform path-list separator (`:` on the Unix targets this
binary's non-Windows code paths compile for). -/
def pathSeparator : Char := ':'

/-- `std::env::JoinPathsError`. -/
inductive JoinError where
  | joinPathsError
deriving DecidableEq, Repr

/-- `std::env::join_paths` on Unix: errors when any entry contains the
separator character, else joins the entries with the separator.
Containment is tested on the entry's character list. -/
def join_paths (paths : List String) : Except JoinError String :=
  if paths.any (fun p => p.data.contains pathSeparator) then
    Except.error JoinError.joinPathsError
  else
    Except.ok (String.intercalate (String.singleton pathSeparator) paths)

/-- `generate_shell_command` (lines 332–342) with the detected shell
injected.  The source calls `.expect("Failed to join paths")`, which
panics when `join_paths` fails; the panic is modelled as the propagated
`JoinError`. -/
def generate_shell_command (shell : Option String) (paths : List String) :
    Except JoinError String :=
  match join_paths paths with
  | Except.error e => Except.error e
  | Except.ok new_path_str =>
      if shell = some "fish" then
        Except.ok ("set -x PATH " ++ new_path_str)
      else
        Except.ok ("export PATH=\"" ++ new_path_str ++ "\"")

/-- Observable effect of `main`'s epilogue (lines 41–49) plus the
process exit: lines printed to standard output, whether an error
description reached the error stream, and whether the process exit
indication is non-zero.  A panic (the `.expect` on `join_paths`)
terminates the process abnormally: nothing on standard output, the
panic message on the error stream, non-zero exit status. -/
structure ProcessOutcome where
  stdout_lines : List String
  stderr_error : Bool
  exit_nonzero : Bool
deriving DecidableEq, Repr

/-- `main`'s observable behaviour once `run_app` has returned
`Ok(final_paths)` and the terminal has been restored. -/
def main_outcome (shell : Option String) (final_paths : List String) :
    ProcessOutcome :=
  match generate_shell_command shell final_paths with
  | Except.ok command =>
      { stdout_lines := [command], stderr_error := false, exit_nonzero := false }
  | Except.error _ =>
      { stdout_lines := [], stderr_error := true, exit_nonzero := true }

/-! ## Helper lemmas -/

/-- `insertIdx` within bounds is "insert at the index, shifting the
tail up by one". -/
theorem insertIdx_eq_take_cons_drop {α : Type _} (l : List α) (n : Nat)
    (h : n ≤ l.length) (x : α) :
    l.insertIdx n x = l.take n ++ x :: l.drop n := by
  induction l generalizing n with
  | nil =>
      have hn : n = 0 := Nat.le_zero.mp (by simpa using h)
      subst hn
      simp
  | cons a as ih =>
      cases n with
      | zero => simp
      | succ n =>
          simp only [List.insertIdx_succ_cons, List.take_succ_cons,
            List.drop_succ_cons, List.cons_append, List.cons.injEq, true_and]
          exact ih n (by simpa using h)

/-- Unfolding of the quit condition into the three quit keys. -/
theorem quit_requested_iff (key : KeyEvent) :
    quit_requested key = true ↔
      (key.code = KeyCode.char 'q' ∨ key.code = KeyCode.esc ∨
        (key.code = KeyCode.char 'c' ∧ key.modifiers = KeyModifiers.CONTROL)) := by
  simp only [quit_requested, Bool.or_eq_true, Bool.and_eq_true, beq_iff_eq]
  tauto

/-! ## C1: the selection invariant is not preserved by the event loop -/

/-- C1 (code bug): the invariant "non-empty list ⇒ `Some i` with
`i < len`, empty list ⇒ `None`" is violated in a reachable state.
Starting from the single-entry list `["/usr/bin"]`, pressing `d`
empties the list (selection `None`), and then pressing Up sets the
selection to `Some 0` on the still-empty list. -/
theorem selection_invariant_violated_reachable :
    run_keys (fun _ => false) (init_session ["/usr/bin"])
      [⟨KeyCode.char 'd', KeyModifiers.NONE⟩, ⟨KeyCode.up, KeyModifiers.NONE⟩] =
      RunResult.running
        { paths := [], selection := some 0,
          input_mode := InputMode.Normal, input := "" } ∧
    ¬ selection_invariant ([] : List String) (some 0) := by
  constructor
  · rfl
  · simp [selection_invariant]

/-! ## C4: Up/Down on an empty list are not no-ops -/

/-- C4 (code bug): on an empty path list the initial selection is
`None`, but an Up or Down key sets the selection to `Some 0` while the
list stays empty — not a no-op, contradicting
"the selection stays None". -/
theorem move_selection_empty_list_not_noop :
    init_session [] =
      { paths := [], selection := none,
        input_mode := InputMode.Normal, input := "" } ∧
    step (fun _ => false)
      { paths := [], selection := none,
        input_mode := InputMode.Normal, input := "" }
      ⟨KeyCode.up, KeyModifiers.NONE⟩ =
      StepResult.cont
        { paths := [], selection := some 0,
          input_mode := InputMode.Normal, input := "" } ∧
    step (fun _ => false)
      { paths := [], selection := none,
        input_mode := InputMode.Normal, input := "" }
      ⟨KeyCode.down, KeyModifiers.NONE⟩ =
      StepResult.cont
        { paths := [], selection := some 0,
          input_mode := InputMode.Normal, input := "" } :=
  ⟨rfl, rfl, rfl⟩

/-! ## C10: the Down handler's `paths.len() - 1` is reached on an empty list -/

/-- C10 (code bug): from the empty initial list, the first Down key
sets the selection to `Some 0` (list still empty); the second Down key
then reaches `i < paths.len() - 1` with `paths.len() = 0`, where the
`usize` subtraction underflows (panic in debug builds). -/
theorem down_key_underflow_reachable :
    run_keys (fun _ => false) (init_session [])
      [⟨KeyCode.down, KeyModifiers.NONE⟩, ⟨KeyCode.down, KeyModifiers.NONE⟩] =
      RunResult.panicked := by
  rfl

/-! ## C2: the emitted shell command -/

/-- C2 (counterexample): for the list `["/custom/bin", "/another/bin"]`
under fish, the generator emits the separator-joined
`set -x PATH /custom/bin:/another/bin`, NOT the space-separated
`set -x PATH /custom/bin /another/bin` the claim states. -/
theorem fish_command_not_space_separated :
    generate_shell_command (some "fish") ["/custom/bin", "/another/bin"] =
      Except.ok "set -x PATH /custom/bin:/another/bin" ∧
    generate_shell_command (some "fish") ["/custom/bin", "/another/bin"] ≠
      Except.ok "set -x PATH /custom/bin /another/bin" := by
  refine ⟨rfl, ?_⟩
  rw [show generate_shell_command (some "fish") ["/custom/bin", "/another/bin"] =
      Except.ok "set -x PATH /custom/bin:/another/bin" from rfl]
  intro h
  injection h with h'
  exact absurd h' (by decide)

/-- C2 (amended): whenever joining succeeds, exactly one line is
printed on standard output: `set -x PATH <joined>` for fish (the
entries joined by the platform separator, unquoted), and
`export PATH="<joined>"` for every other shell; for the example list
the fish line is `set -x PATH /custom/bin:/another/bin`. -/
theorem generate_shell_command_forms (shell : Option String)
    (paths : List String) (joined : String)
    (h : join_paths paths = Except.ok joined) :
    main_outcome shell paths =
      { stdout_lines :=
          [if shell = some "fish" then "set -x PATH " ++ joined
           else "export PATH=\"" ++ joined ++ "\""],
        stderr_error := false, exit_nonzero := false } ∧
    generate_shell_command (some "fish") ["/custom/bin", "/another/bin"] =
      Except.ok "set -x PATH /custom/bin:/another/bin" := by
  constructor
  · unfold main_outcome generate_shell_command
    rw [h]
    by_cases hs : shell = some "fish" <;> simp [hs]
  · rfl

/-- Witness for `generate_shell_command_forms` at the example list with
the fish shell. -/
theorem generate_shell_command_forms_witness :
    main_outcome (some "fish") ["/custom/bin", "/another/bin"] =
      { stdout_lines := ["set -x PATH /custom/bin:/another/bin"],
        stderr_error := false, exit_nonzero := false } := by
  have h := (generate_shell_command_forms (some "fish")
    ["/custom/bin", "/another/bin"] "/custom/bin:/another/bin" rfl).1
  simpa using h

/-! ## C3: entries containing the separator make joining fail -/

/-- C3: if some entry contains the platform path-list separator,
`join_paths` fails with a `JoinError`; the process then prints nothing
on standard output, reports on the error stream, and exits non-zero. -/
theorem separator_in_entry_join_error (shell : Option String)
    (paths : List String)
    (h : paths.any (fun p => p.data.contains pathSeparator) = true) :
    generate_shell_command shell paths =
      Except.error JoinError.joinPathsError ∧
    main_outcome shell paths =
      { stdout_lines := [], stderr_error := true, exit_nonzero := true } := by
  have hj : join_paths paths = Except.error JoinError.joinPathsError := by
    unfold join_paths
    rw [if_pos h]
  constructor
  · unfold generate_shell_command
    rw [hj]
  · unfold main_outcome generate_shell_command
    rw [hj]

/-- Witness for `separator_in_entry_join_error`: the entry `/opt:bin`
contains the separator `:`. -/
theorem separator_in_entry_join_error_witness :
    generate_shell_command none ["/usr/bin", "/opt:bin"] =
      Except.error JoinError.joinPathsError ∧
    main_outcome none ["/usr/bin", "/opt:bin"] =
      { stdout_lines := [], stderr_error := true, exit_nonzero := true } :=
  separator_in_entry_join_error none ["/usr/bin", "/opt:bin"] (by decide)

/-! ## C5: delete_selected -/

/-- C5: with selection `Some i` (in bounds), `delete_selected` removes
exactly the entry at index `i` (the list becomes
`take i ++ drop (i+1)`); the new selection is `None` on an emptied
list, else `Some i` while `i` is still a valid index, else the new last
index; with selection `None` nothing changes. -/
theorem delete_selected_correct (paths : List String) (i : Nat)
    (h : i < paths.length) :
    delete_selected paths (some i) =
      some (paths.eraseIdx i,
        if (paths.eraseIdx i).isEmpty then none
        else if i < (paths.eraseIdx i).length then some i
        else some ((paths.eraseIdx i).length - 1)) ∧
    paths.eraseIdx i = paths.take i ++ paths.drop (i + 1) ∧
    delete_selected paths none = some (paths, none) := by
  refine ⟨?_, List.eraseIdx_eq_take_drop_succ paths i, rfl⟩
  show (if i < paths.length then
      let paths' := paths.eraseIdx i
      let new_index := if i ≥ paths'.length then paths'.length - 1 else i
      some (paths', if paths'.isEmpty then none else some new_index)
    else none) = _
  rw [if_pos h]
  have hsel :
      (if (paths.eraseIdx i).isEmpty then none
       else some (if i ≥ (paths.eraseIdx i).length then
         (paths.eraseIdx i).length - 1 else i)) =
      (if (paths.eraseIdx i).isEmpty then none
       else if i < (paths.eraseIdx i).length then some i
       else some ((paths.eraseIdx i).length - 1)) := by
    by_cases he : (paths.eraseIdx i).isEmpty
    · simp [he]
    · by_cases hlt : i < (paths.eraseIdx i).length
      · simp [he, hlt, Nat.not_le.mpr hlt]
      · simp [he, hlt, Nat.le_of_not_lt hlt]
  simp only [hsel]

/-- Witness for `delete_selected_correct`: deleting the last remaining
entry of `["/usr/bin"]` yields the empty list and selection `None`. -/
theorem delete_selected_correct_witness :
    delete_selected ["/usr/bin"] (some 0) = some ([], none) ∧
    delete_selected ["/usr/bin"] none = some (["/usr/bin"], none) := by
  have h := delete_selected_correct ["/usr/bin"] 0 (by decide)
  exact ⟨by simpa using h.1, h.2.2⟩

/-! ## C6: insert_path_at_selection -/

/-- C6: `insert_path_at_selection` inserts at the target index clamped
to `[0, len]`, shifting the entries at or after it up by one (the
result is `take idx ++ new_path :: drop idx`), grows the list by one,
and sets the selection to the inserted index. -/
theorem insert_path_at_selection_correct (paths : List String)
    (sel : Option Nat) (new_path : String) (ip : InsertionPoint) :
    insert_path_at_selection paths sel new_path ip =
      (paths.take (min (target_index sel ip) paths.length) ++
        new_path :: paths.drop (min (target_index sel ip) paths.length),
       some (min (target_index sel ip) paths.length)) ∧
    (insert_path_at_selection paths sel new_path ip).1.length =
      paths.length + 1 := by
  have hle : min (target_index sel ip) paths.length ≤ paths.length :=
    Nat.min_le_right _ _
  have hdef : insert_path_at_selection paths sel new_path ip =
      (paths.insertIdx (min (target_index sel ip) paths.length) new_path,
       some (min (target_index sel ip) paths.length)) := by
    unfold insert_path_at_selection target_index
    cases ip <;> rfl
  refine ⟨?_, ?_⟩
  · rw [hdef, insertIdx_eq_take_cons_drop paths _ hle]
  · rw [hdef]
    exact List.length_insertIdx _ _ hle

/-! ## C8: insert followed by delete_selected restores the list -/

/-- C8: immediately deleting after an insertion restores the original
path list, for every starting list, selection, entry and side. -/
theorem insert_then_delete_roundtrip (paths : List String)
    (sel : Option Nat) (new_path : String) (ip : InsertionPoint) :
    (delete_selected (insert_path_at_selection paths sel new_path ip).1
      (insert_path_at_selection paths sel new_path ip).2).map Prod.fst =
      some paths := by
  unfold insert_path_at_selection
  cases ip <;>
  · simp only []
    set idx := min _ paths.length with hidx
    have hle : idx ≤ paths.length := Nat.min_le_right _ _
    have hlen : (paths.insertIdx idx new_path).length = paths.length + 1 :=
      List.length_insertIdx _ _ hle
    have hlt : idx < (paths.insertIdx idx new_path).length := by omega
    unfold delete_selected
    simp [hlt, List.eraseIdx_insertIdx]

/-! ## C7: the commit key in ComposingInsertion mode -/

/-- C7: on Enter the buffer is trimmed; when the existence probe
accepts the trimmed text the list-model insert runs on it, otherwise
the list and selection are left unchanged; in both cases the buffer is
cleared and the mode returns to `Normal`. -/
theorem commit_key_behaviour (probe : String → Bool) (m : KeyModifiers)
    (input : String) (im : InputMode) (paths : List String)
    (sel : Option Nat) (ip : InsertionPoint) :
    handle_input_mode probe ⟨KeyCode.enter, m⟩ input im paths sel ip =
      { paths :=
          if probe input.trim then
            (insert_path_at_selection paths sel input.trim ip).1
          else paths,
        selection :=
          if probe input.trim then
            (insert_path_at_selection paths sel input.trim ip).2
          else sel,
        input_mode := InputMode.Normal,
        input := "" } := by
  by_cases hp : probe input.trim <;>
    simp [handle_input_mode, hp]

/-! ## C9: the loop quits only from Navigating mode -/

/-- C9: `step` returns `quit` only in `Normal` mode on one of the quit
keys (`q`, Esc, Ctrl-C), and then with the current path list; in a
composing mode no key quits, the mode returns to `Normal` exactly on
Enter (commit) or Esc (cancel), and Esc discards the buffer leaving
the list and selection unchanged. -/
theorem quit_only_from_navigating (probe : String → Bool) (s : Session)
    (key : KeyEvent) :
    (∀ p, step probe s key = StepResult.quit p →
      s.input_mode = InputMode.Normal ∧
      (key.code = KeyCode.char 'q' ∨ key.code = KeyCode.esc ∨
        (key.code = KeyCode.char 'c' ∧ key.modifiers = KeyModifiers.CONTROL)) ∧
      p = s.paths) ∧
    (s.input_mode ≠ InputMode.Normal →
      (∀ p, step probe s key ≠ StepResult.quit p) ∧
      (∀ s', step probe s key = StepResult.cont s' →
        (s'.input_mode = InputMode.Normal ↔
          (key.code = KeyCode.enter ∨ key.code = KeyCode.esc))) ∧
      (key.code = KeyCode.esc →
        step probe s key =
          StepResult.cont { s with input := "", input_mode := InputMode.Normal })) := by
  obtain ⟨paths, sel, mode, input⟩ := s
  obtain ⟨code, mods⟩ := key
  cases mode with
  | Normal =>
      refine ⟨?_, fun hn => absurd rfl hn⟩
      intro p hp
      by_cases hq : quit_requested ⟨code, mods⟩
      · simp only [step, if_pos hq] at hp
        injection hp with hp'
        exact ⟨rfl, (quit_requested_iff ⟨code, mods⟩).mp hq, hp'.symm⟩
      · simp only [step, if_neg hq] at hp
        repeat' split at hp
        all_goals simp_all
  | InsertAfter =>
      refine ⟨fun p hp => by simp [step] at hp, fun _ => ⟨?_, ?_, ?_⟩⟩
      · intro p hp
        simp [step] at hp
      · intro s' hs'
        simp only [step, StepResult.cont.injEq] at hs'
        subst hs'
        cases code <;> simp [handle_input_mode]
      · intro hesc
        cases hesc
        simp [step, handle_input_mode]
  | InsertBefore =>
      refine ⟨fun p hp => by simp [step] at hp, fun _ => ⟨?_, ?_, ?_⟩⟩
      · intro p hp
        simp [step] at hp
      · intro s' hs'
        simp only [step, StepResult.cont.injEq] at hs'
        subst hs'
        cases code <;> simp [handle_input_mode]
      · intro hesc
        cases hesc
        simp [step, handle_input_mode]

/-- Witness for `quit_only_from_navigating`: pressing Esc while
composing an insertion with buffer `"abc"` cancels back to `Normal`
with the list and selection untouched and the buffer discarded. -/
theorem quit_only_from_navigating_witness :
    step (fun _ => true)
      { paths := ["/usr/bin"], selection := some 0,
        input_mode := InputMode.InsertAfter, input := "abc" }
      ⟨KeyCode.esc, KeyModifiers.NONE⟩ =
      StepResult.cont
        { paths := ["/usr/bin"], selection := some 0,
          input_mode := InputMode.Normal, input := "" } :=
  ((quit_only_from_navigating (fun _ => true)
    { paths := ["/usr/bin"], selection := some 0,
      input_mode := InputMode.InsertAfter, input := "abc" }
    ⟨KeyCode.esc, KeyModifiers.NONE⟩).2 (by simp)).2.2 rfl

end Pathctl
